import Mathlib

set_option linter.all false

/- Shallow embedding of src/assembly/mini_nano.c, a small terminal text editor.

   Rows are byte lists (List Nat, each byte 0..255); the C ints cx, cy, numrows
   are modelled as Int; the global struct editorConfig E becomes the record
   EState passed explicitly.  File-system and terminal effects are parameters:
   fopen/getline results and open/ftruncate/write outcomes are inputs, and the
   bytes the save path would write are computed by `serialize`. -/

/-- C library iscntrl for the C locale on byte values: bytes 0..31 and 127. -/
def iscntrl (c : Nat) : Bool := c < 32 || c == 127

/-- Labels of the three editorPrompt call sites (mini_nano.c:472, 482, 491, 494). -/
inductive PromptLabel where
  | saveAs
  | openFile
  | confirmExit
deriving DecidableEq

/-- E.statusmsg, one constructor per snprintf(E.statusmsg, ...) site in the C
    code; err carries the strerror(errno) text, which the environment supplies. -/
inductive StatusMsg where
  | empty
  | helpBar
  | couldNotOpen (err : String)
  | opened (fname : List Nat)
  | noFilename
  | cantSave (err : String)
  | writeError (err : String)
  | savedTo (fname : List Nat)
  | promptLine (label : PromptLabel) (buf : List Nat)
deriving DecidableEq

/-- The parts of struct editorConfig (mini_nano.c:35-48) that the buffer,
    cursor, prompt and keypress logic read or write.  The scroll offsets and
    screen dimensions only feed the renderer and are not touched by the
    operations modelled here. -/
structure EState where
  cx : Int
  cy : Int
  rows : List (List Nat)
  dirty : Bool
  filename : List Nat
  statusmsg : StatusMsg
deriving DecidableEq

/-- E.numrows as a C int. -/
def nr (rows : List (List Nat)) : Int := (rows.length : Int)

/-- E.rows[i].  An out-of-range read yields []; the C code never performs one
    in the situations the theorems below cover. -/
def rowAt (rows : List (List Nat)) (i : Int) : List Nat :=
  if 0 ≤ i then rows.getD i.toNat [] else []

/-- E.rows[i].size as a C int; the row past the end has length 0. -/
def rlen (rows : List (List Nat)) (i : Int) : Int := ((rowAt rows i).length : Int)

/-- editorAppendRow (mini_nano.c:158-167): add a row at the end, set dirty. -/
def editorAppendRow (s : EState) (bytes : List Nat) : EState :=
  { s with rows := s.rows ++ [bytes], dirty := true }

/-- The lines getline (mini_nano.c:192) yields: content split after every
    '\n' (10), with a final unterminated segment kept; empty content yields
    no lines. -/
def splitAfterLF : List Nat → List (List Nat)
  | [] => []
  | c :: rest =>
    if c = 10 then [c] :: splitAfterLF rest
    else
      match splitAfterLF rest with
      | [] => [[c]]
      | l :: ls => (c :: l) :: ls

/-- The terminator-stripping loop (mini_nano.c:193):
    while (len > 0 && (line[len-1] == '\n' || line[len-1] == '\r')) len--;
    i.e. drop the maximal trailing run of LF/CR bytes. -/
def stripTrail (l : List Nat) : List Nat :=
  (l.reverse.dropWhile (fun c => c == 10 || c == 13)).reverse

/-- editorOpen (mini_nano.c:177-201).  The file system is a parameter:
    Except.error e models fopen failing with strerror text e, Except.ok
    content models the opened file's bytes.  Note the C code frees the rows
    and overwrites the filename before attempting fopen. -/
def editorOpen (s : EState) (fname : List Nat) (res : Except String (List Nat)) : EState :=
  let s1 := { s with rows := [], filename := fname.take 511 }
  match res with
  | Except.error e => { s1 with statusmsg := StatusMsg.couldNotOpen e }
  | Except.ok content =>
      let s2 := (splitAfterLF content).foldl
        (fun t line => editorAppendRow t (stripTrail line)) s1
      { s2 with dirty := false, statusmsg := StatusMsg.opened fname }

/-- The save buffer built at mini_nano.c:219-230: each row's bytes followed by
    a single '\n', in row order. -/
def serialize : List (List Nat) → List Nat
  | [] => []
  | r :: rs => r ++ 10 :: serialize rs

/-- Outcome of the OS calls inside editorSave: open(2) failing, ftruncate
    failing, write(2) coming up short, or everything succeeding. -/
inductive SaveOutcome where
  | ok
  | openFail (err : String)
  | truncFail
  | writeFail (err : String)
deriving DecidableEq

/-- editorSave (mini_nano.c:203-247).  Every call site passes E.filename, so
    the filename parameter is read from the state; the Bool result is the C
    return value (1 on success).  Only the fully successful path clears
    dirty; the ftruncate failure path (line 233) returns without even setting
    a status message. -/
def editorSave (out : SaveOutcome) (s : EState) : EState × Bool :=
  if s.filename = [] then ({ s with statusmsg := StatusMsg.noFilename }, false)
  else
    match out with
    | SaveOutcome.openFail e => ({ s with statusmsg := StatusMsg.cantSave e }, false)
    | SaveOutcome.truncFail => (s, false)
    | SaveOutcome.writeFail e => ({ s with statusmsg := StatusMsg.writeError e }, false)
    | SaveOutcome.ok =>
        ({ s with dirty := false, statusmsg := StatusMsg.savedTo s.filename }, true)

/-- editorInsertChar (mini_nano.c:250-262): append an empty row when the
    cursor sits on the virtual row past the end, then insert the byte at
    position cx of row cy, shifting the rest right; cx advances, dirty set. -/
def editorInsertChar (s : EState) (c : Nat) : EState :=
  let s1 := if s.cy = nr s.rows then editorAppendRow s [] else s
  let i := s1.cy.toNat
  let row := rowAt s1.rows s1.cy
  { s1 with rows := s1.rows.set i (row.take s1.cx.toNat ++ c :: row.drop s1.cx.toNat),
            cx := s1.cx + 1, dirty := true }

/-- editorDelChar (mini_nano.c:264-288): no-op past the end or at the origin;
    with cx > 0 remove the byte before the cursor; with cx == 0 join row cy
    onto row cy-1, erase row cy, and put the cursor at the join point. -/
def editorDelChar (s : EState) : EState :=
  if s.cy = nr s.rows then s
  else if s.cx = 0 ∧ s.cy = 0 then s
  else
    let i := s.cy.toNat
    let row := rowAt s.rows s.cy
    if 0 < s.cx then
      { s with rows := s.rows.set i (row.take (s.cx.toNat - 1) ++ row.drop s.cx.toNat),
               cx := s.cx - 1, dirty := true }
    else
      let prev := rowAt s.rows (s.cy - 1)
      { s with rows := ((s.rows.set (i - 1) (prev ++ row)).eraseIdx i),
               cy := s.cy - 1, cx := (prev.length : Int), dirty := true }

/-- Net effect of the downward shift loop
    for (i = numrows - 1; i > k; i--) rows[i] = rows[i-1];
    entries at indices ≤ k stay, every later entry takes its predecessor's
    value, and the last entry is overwritten. -/
def shiftDown (l : List (List Nat)) (k : Nat) : List (List Nat) :=
  l.take (k + 1) ++ (l.drop k).dropLast

/-- editorInsertNewline (mini_nano.c:290-321).  cx == 0: append an empty row,
    shift rows below cy down, duplicate row cy into cy+1, clear row cy.
    cx > 0: truncate row cy to its first cx bytes, append the remainder via
    editorAppendRow, shift it into position cy+1.  Either way the cursor
    moves to (cy+1, 0) and dirty is set. -/
def editorInsertNewline (s : EState) : EState :=
  let i := s.cy.toNat
  if s.cx = 0 then
    let r1 := s.rows ++ [([] : List Nat)]
    let r2 := shiftDown r1 i
    let r3 := r2.set (i + 1) (r2.getD i [])
    let r4 := r3.set i []
    { s with rows := r4, cy := s.cy + 1, cx := 0, dirty := true }
  else
    let row := rowAt s.rows s.cy
    let rem := row.drop s.cx.toNat
    let r1 := (s.rows.set i (row.take s.cx.toNat)) ++ [rem]
    let r2 := shiftDown r1 (i + 1)
    let r3 := r2.set (i + 1) rem
    { s with rows := r3, cy := s.cy + 1, cx := 0, dirty := true }

/-- editorPrompt (mini_nano.c:324-356) run over a list of decoded key codes.
    Each iteration first displays label plus the current capture buffer on the
    status line, then reads a key: Enter accepts a non-empty buffer and
    cancels an empty one, 127/8 drop the last byte, printable bytes append,
    ESC cancels, anything else is ignored.  The result pairs the last
    displayed status line with: none when the supplied keys ran out (the C
    loop would keep blocking on reads), some none for a cancelled prompt
    (NULL), and some (some buf) for an accepted capture. -/
def editorPrompt (label : PromptLabel) (buf : List Nat) (keys : List Nat) :
    StatusMsg × Option (Option (List Nat)) :=
  match keys with
  | [] => (StatusMsg.promptLine label buf, none)
  | c :: rest =>
    if c = 13 then
      (StatusMsg.promptLine label buf, some (if buf = [] then none else some buf))
    else if c = 127 ∨ c = 8 then editorPrompt label buf.dropLast rest
    else if iscntrl c = false ∧ c < 128 then editorPrompt label (buf ++ [c]) rest
    else if c = 27 then (StatusMsg.promptLine label buf, some none)
    else editorPrompt label buf rest

/-- editorReadKey (mini_nano.c:79-113) after the first byte c has arrived.
    pending holds the bytes the follow-up read(2) calls can still deliver
    before the VTIME timeout; an exhausted list models a read returning 0.
    Escape sequences: ESC '[' 'A'..'D' become 1065..1068 (the 'A'+1000 style
    arrow codes), ESC '[' '3' '~' becomes 127 (DEL), and every other or
    incomplete sequence yields a literal ESC (27). -/
def editorReadKey (c : Nat) (pending : List Nat) : Nat :=
  if c = 27 then
    match pending with
    | [] => 27
    | s0 :: rest1 =>
      match rest1 with
      | [] => 27
      | s1 :: rest2 =>
        if s0 = 91 then
          if 48 ≤ s1 ∧ s1 ≤ 57 then
            match rest2 with
            | [] => 27
            | s2 :: _ => if s2 = 126 then (if s1 = 51 then 127 else 27) else 27
          else if s1 = 65 then 1065
          else if s1 = 66 then 1066
          else if s1 = 67 then 1067
          else if s1 = 68 then 1068
          else 27
        else 27
  else c

/-- editorMoveCursor (mini_nano.c:435-454).  1065..1068 are the up, down,
    right, left arrow codes ('A'+1000 .. 'D'+1000) from editorReadKey. -/
def editorMoveCursor (key : Nat) (s : EState) : EState :=
  if key = 1065 then
    let s1 := if 0 < s.cy then { s with cy := s.cy - 1 } else s
    if s1.cy < nr s1.rows ∧ rlen s1.rows s1.cy < s1.cx then
      { s1 with cx := rlen s1.rows s1.cy } else s1
  else if key = 1066 then
    let s1 := if s.cy < nr s.rows then { s with cy := s.cy + 1 } else s
    if s1.cy < nr s1.rows ∧ rlen s1.rows s1.cy < s1.cx then
      { s1 with cx := rlen s1.rows s1.cy } else s1
  else if key = 1067 then
    if s.cy < nr s.rows ∧ s.cx < rlen s.rows s.cy then { s with cx := s.cx + 1 }
    else if s.cy < nr s.rows ∧ s.cx = rlen s.rows s.cy then
      { s with cy := s.cy + 1, cx := 0 }
    else s
  else if key = 1068 then
    if 0 < s.cx then { s with cx := s.cx - 1 }
    else if 0 < s.cy then { s with cy := s.cy - 1, cx := rlen s.rows (s.cy - 1) }
    else s
  else s

deriving instance DecidableEq for Except

/-- The inputs one editorProcessKeypress call can consume: the decoded key,
    the key codes any prompt it opens will read (promptKeys2 for the nested
    Save-as prompt inside Ctrl-X), and the outcomes of the OS calls the save
    and open paths would make. -/
structure KInput where
  key : Nat
  promptKeys : List Nat
  promptKeys2 : List Nat
  saveOut : SaveOutcome
  openRes : Except String (List Nat)
deriving DecidableEq

/-- Result of one editorProcessKeypress call: the new state, whether exit(0)
    was reached, and whether editorSave was invoked. -/
structure PResult where
  st : EState
  exited : Bool
  saveInvoked : Bool
deriving DecidableEq

/-- editorProcessKeypress (mini_nano.c:456-516).  Ctrl-Q (17) is reserved and
    does nothing; Enter, Backspace/DEL, Ctrl-S (19), Ctrl-O (15), Ctrl-X (24)
    and the arrow codes dispatch to the operations above; the default branch
    inserts exactly the non-control bytes below 128. -/
def editorProcessKeypress (inp : KInput) (s : EState) : PResult :=
  let c := inp.key
  if c = 17 then ⟨s, false, false⟩
  else if c = 13 then ⟨editorInsertNewline s, false, false⟩
  else if c = 127 ∨ c = 8 then ⟨editorDelChar s, false, false⟩
  else if c = 19 then
    if s.filename = [] then
      let pr := editorPrompt PromptLabel.saveAs [] inp.promptKeys
      let s0 := { s with statusmsg := pr.1 }
      match pr.2 with
      | some (some fn) =>
          let s1 := { s0 with filename := fn.take 511 }
          ⟨(editorSave inp.saveOut s1).1, false, true⟩
      | some none => ⟨s0, false, false⟩
      | none => ⟨s0, false, false⟩
    else ⟨(editorSave inp.saveOut s).1, false, true⟩
  else if c = 15 then
    let pr := editorPrompt PromptLabel.openFile [] inp.promptKeys
    let s0 := { s with statusmsg := pr.1 }
    match pr.2 with
    | some (some fn) =>
        let s1 := editorOpen s0 fn inp.openRes
        ⟨{ s1 with cx := 0, cy := 0 }, false, false⟩
    | some none => ⟨s0, false, false⟩
    | none => ⟨s0, false, false⟩
  else if c = 24 then
    if s.dirty then
      let pr := editorPrompt PromptLabel.confirmExit [] inp.promptKeys
      let s0 := { s with statusmsg := pr.1 }
      match pr.2 with
      | some (some ans) =>
          if ans.head? = some 121 ∨ ans.head? = some 89 then
            if s0.filename = [] then
              let pr2 := editorPrompt PromptLabel.saveAs [] inp.promptKeys2
              let s2 := { s0 with statusmsg := pr2.1 }
              match pr2.2 with
              | some (some fn) =>
                  let s3 := { s2 with filename := fn.take 511 }
                  ⟨(editorSave inp.saveOut s3).1, true, true⟩
              | some none => ⟨s2, false, false⟩
              | none => ⟨s2, false, false⟩
            else ⟨(editorSave inp.saveOut s0).1, true, true⟩
          else ⟨s0, true, false⟩
      | some none => ⟨s0, true, false⟩
      | none => ⟨s0, false, false⟩
    else ⟨s, true, false⟩
  else if c = 1065 ∨ c = 1066 ∨ c = 1067 ∨ c = 1068 then
    ⟨editorMoveCursor c s, false, false⟩
  else if iscntrl c = false ∧ c < 128 then
    ⟨editorInsertChar s c, false, false⟩
  else ⟨s, false, false⟩

/-- The cursor validity invariant stated by the spec: 0 ≤ cy ≤ numrows and
    0 ≤ cx ≤ length of row cy, the virtual row at numrows having length 0. -/
def ValidCursor (s : EState) : Prop :=
  0 ≤ s.cy ∧ s.cy ≤ nr s.rows ∧ 0 ≤ s.cx ∧ s.cx ≤ rlen s.rows s.cy

/-- The invariant editorMoveCursor actually maintains: the cx bound is only
    guaranteed while the cursor is on a real row, because the vertical moves
    clamp cx only when cy < numrows. -/
def WeakValidCursor (s : EState) : Prop :=
  0 ≤ s.cy ∧ s.cy ≤ nr s.rows ∧ 0 ≤ s.cx ∧
    (s.cy < nr s.rows → s.cx ≤ rlen s.rows s.cy)

/-- Apply a sequence of arrow-key codes through editorMoveCursor. -/
def applyMoves (ms : List Nat) (s : EState) : EState :=
  ms.foldl (fun t k => editorMoveCursor k t) s

/-- The buffer-level operations of the claims, each one a call into the
    functions above; save and open carry the outcome of their OS calls. -/
inductive EditOp where
  | insertChar (c : Nat)
  | delChar
  | insertNewline
  | appendRow (b : List Nat)
  | moveCursor (k : Nat)
  | saveFile (out : SaveOutcome)
  | openFile (fname : List Nat) (res : Except String (List Nat))

/-- Run one operation on the editor state. -/
def applyOp : EditOp → EState → EState
  | EditOp.insertChar c, s => editorInsertChar s c
  | EditOp.delChar, s => editorDelChar s
  | EditOp.insertNewline, s => editorInsertNewline s
  | EditOp.appendRow b, s => editorAppendRow s b
  | EditOp.moveCursor k, s => editorMoveCursor k s
  | EditOp.saveFile out, s => (editorSave out s).1
  | EditOp.openFile fn res, s => editorOpen s fn res

/-- The operations that synchronise the buffer with the file system. -/
def isSyncOp : EditOp → Bool
  | EditOp.saveFile _ => true
  | EditOp.openFile _ _ => true
  | _ => false

/-- Ghost-instrumented step: alongside the editor state it tracks the
    serialized content at the last successful save or load, which the C code
    itself never stores. -/
def gstep (op : EditOp) (g : EState × List Nat) : EState × List Nat :=
  let s' := applyOp op g.1
  match op with
  | EditOp.saveFile out => (s', if (editorSave out g.1).2 then serialize s'.rows else g.2)
  | EditOp.openFile _ res =>
      (s', match res with
           | Except.ok _ => serialize s'.rows
           | Except.error _ => g.2)
  | _ => (s', g.2)

/-- Run a sequence of operations with the ghost sync content. -/
def runOps (ops : List EditOp) (g : EState × List Nat) : EState × List Nat :=
  ops.foldl (fun t op => gstep op t) g

/-- A file as a list of (line body, terminated-by-CRLF?) pairs, rendered to
    its byte content: each body followed by CRLF or LF. -/
def mkContent : List (List Nat × Bool) → List Nat
  | [] => []
  | (b, crlf) :: rest => b ++ (if crlf then [13, 10] else [10]) ++ mkContent rest

/-- Modelled from the spec: the normalization the spec describes for the
    load-then-serialize round trip, "CRLF/LF collapsed to a single terminator
    per line" - each getline line keeps its body byte-for-byte and its CRLF
    or LF terminator becomes a single LF.  Stated from the spec's words, to
    be compared with what editorOpen followed by serialize computes. -/
def specLineNormalize (content : List Nat) : List Nat :=
  serialize ((splitAfterLF content).map (fun l =>
    if l.reverse.take 2 = [10, 13] then l.dropLast.dropLast
    else if l.reverse.take 1 = [10] then l.dropLast
    else l))

instance (s : EState) : Decidable (ValidCursor s) := by
  unfold ValidCursor; infer_instance

instance (s : EState) : Decidable (WeakValidCursor s) := by
  unfold WeakValidCursor; infer_instance

/-- Row lengths are never negative. -/
theorem rlen_nonneg (rows : List (List Nat)) (i : Int) : 0 ≤ rlen rows i :=
  Int.ofNat_nonneg _

/-- C1 counterexample: the claim says a failed editorOpen leaves the buffer
    rows exactly as they were; on a one-row buffer a failing open empties the
    buffer instead, because editorFreeRows runs before fopen is attempted. -/
theorem c1_open_failure_counterexample :
    (editorOpen ⟨0, 0, [[120]], false, [103], StatusMsg.empty⟩ [102]
        (Except.error "No such file or directory")).rows = [] ∧
    (⟨0, 0, [[120]], false, [103], StatusMsg.empty⟩ : EState).rows = [[120]] ∧
    (editorOpen ⟨0, 0, [[120]], false, [103], StatusMsg.empty⟩ [102]
        (Except.error "No such file or directory")).rows ≠
      (⟨0, 0, [[120]], false, [103], StatusMsg.empty⟩ : EState).rows := by
  decide

/-- C1 amended: a failed editorOpen is non-fatal and reported through the
    status message, and it leaves the cursor and dirty flag alone, but the
    buffer comes out empty (and the filename rebound), because editorOpen
    frees all rows and copies the new name before attempting fopen. -/
theorem c1_open_failure_state :
    ∀ (s : EState) (fname : List Nat) (e : String),
      (editorOpen s fname (Except.error e)).statusmsg = StatusMsg.couldNotOpen e ∧
      (editorOpen s fname (Except.error e)).rows = [] ∧
      (editorOpen s fname (Except.error e)).dirty = s.dirty ∧
      (editorOpen s fname (Except.error e)).cx = s.cx ∧
      (editorOpen s fname (Except.error e)).cy = s.cy ∧
      (editorOpen s fname (Except.error e)).filename = fname.take 511 := by
  intro s fname e
  simp [editorOpen]

/-- C2 counterexample: from the valid state with one row "abc" and cursor
    (cy 0, cx 3), a single Down move puts the cursor on the virtual row
    numrows with cx still 3, violating cx ≤ length of row cy (the virtual
    row has length 0): the code clamps cx only when the new cy < numrows. -/
theorem c2_moves_counterexample :
    ValidCursor (⟨3, 0, [[97, 98, 99]], false, [], StatusMsg.empty⟩ : EState) ∧
    (applyMoves [1066] ⟨3, 0, [[97, 98, 99]], false, [], StatusMsg.empty⟩).cy = 1 ∧
    (applyMoves [1066] ⟨3, 0, [[97, 98, 99]], false, [], StatusMsg.empty⟩).cx = 3 ∧
    ¬ ValidCursor (applyMoves [1066] ⟨3, 0, [[97, 98, 99]], false, [], StatusMsg.empty⟩) := by
  decide

/-- C3 counterexample: on the file bytes "a\r\r\n" the load/serialize round
    trip yields "a\n", while collapsing the line's CRLF terminator to a
    single LF would keep the body byte "\r" and yield "a\r\n": the loader
    strips the whole trailing CR/LF run, not just one terminator. -/
theorem c3_roundtrip_counterexample :
    serialize ((editorOpen ⟨0, 0, [], false, [], StatusMsg.empty⟩ [102]
        (Except.ok [97, 13, 13, 10])).rows) = [97, 10] ∧
    specLineNormalize [97, 13, 13, 10] = [97, 13, 10] ∧
    serialize ((editorOpen ⟨0, 0, [], false, [], StatusMsg.empty⟩ [102]
        (Except.ok [97, 13, 13, 10])).rows) ≠ specLineNormalize [97, 13, 13, 10] := by
  decide

/-- C7 counterexample: save "ab" successfully, insert 'c', then backspace:
    the buffer again serializes to exactly the content of the last successful
    save, yet the dirty flag is still set - dirty is not "true exactly when
    the buffer differs from the last successful save". -/
theorem c7_dirty_counterexample :
    (runOps [EditOp.saveFile SaveOutcome.ok, EditOp.insertChar 99, EditOp.delChar]
        (⟨2, 0, [[97, 98]], true, [102], StatusMsg.empty⟩, [])).1.dirty = true ∧
    serialize (runOps [EditOp.saveFile SaveOutcome.ok, EditOp.insertChar 99, EditOp.delChar]
        (⟨2, 0, [[97, 98]], true, [102], StatusMsg.empty⟩, [])).1.rows =
      (runOps [EditOp.saveFile SaveOutcome.ok, EditOp.insertChar 99, EditOp.delChar]
        (⟨2, 0, [[97, 98]], true, [102], StatusMsg.empty⟩, [])).2 := by
  decide

/-- C8 counterexample: the claim says ESC '[' digit '~' decodes to the Delete
    key for any digit; for digit '5' the decoder returns a literal ESC (27),
    not Delete (127) - only '3' is recognised. -/
theorem c8_decoder_counterexample :
    editorReadKey 27 [91, 53, 126] = 27 ∧ editorReadKey 27 [91, 53, 126] ≠ 127 := by
  decide

/-- C8 amended: ESC '[' followed by 'A'..'D' decodes to the arrow codes
    1065..1068 (up, down, right, left), ESC '[' '3' '~' decodes to Delete
    (127) but every other digit followed by '~' yields a literal ESC, and a
    timed-out follow-up read at any point of the sequence yields a literal
    ESC instead of blocking. -/
theorem c8_decoder_behaviour :
    (∀ rest : List Nat, editorReadKey 27 (91 :: 65 :: rest) = 1065) ∧
    (∀ rest : List Nat, editorReadKey 27 (91 :: 66 :: rest) = 1066) ∧
    (∀ rest : List Nat, editorReadKey 27 (91 :: 67 :: rest) = 1067) ∧
    (∀ rest : List Nat, editorReadKey 27 (91 :: 68 :: rest) = 1068) ∧
    (∀ rest : List Nat, editorReadKey 27 (91 :: 51 :: 126 :: rest) = 127) ∧
    (∀ (d : Nat) (rest : List Nat), 48 ≤ d → d ≤ 57 → d ≠ 51 →
        editorReadKey 27 (91 :: d :: 126 :: rest) = 27) ∧
    (∀ b : Nat, editorReadKey 27 [b] = 27) ∧
    editorReadKey 27 [] = 27 ∧
    (∀ d : Nat, 48 ≤ d → d ≤ 57 → editorReadKey 27 [91, d] = 27) := by
  refine ⟨fun rest => rfl, fun rest => rfl, fun rest => rfl, fun rest => rfl,
    fun rest => rfl, ?_, fun b => rfl, rfl, ?_⟩
  · intro d rest h1 h2 h3
    simp [editorReadKey, h1, h2, h3]
  · intro d h1 h2
    simp [editorReadKey, h1, h2]

/-- C8 witness: the amended decoder behaviour applied at the concrete inputs
    ESC [ A, ESC [ 5 ~, and the timed-out ESC [ 5 sequence. -/
theorem c8_decoder_witness :
    editorReadKey 27 [91, 65] = 1065 ∧
    editorReadKey 27 [91, 53, 126] = 27 ∧
    editorReadKey 27 [91, 53] = 27 := by
  obtain ⟨h1, -, -, -, -, h6, -, -, h9⟩ := c8_decoder_behaviour
  exact ⟨h1 [], h6 53 [] (by decide) (by decide) (by decide), h9 53 (by decide) (by decide)⟩

/-- A single editorMoveCursor step preserves the weak cursor invariant:
    cy stays in [0, numrows], cx stays non-negative, and cx stays within the
    row length whenever the cursor is on a real row. -/
theorem weakValid_moveCursor (s : EState) (k : Nat) (h : WeakValidCursor s) :
    WeakValidCursor (editorMoveCursor k s) := by
  obtain ⟨ha, hb, hc, hd⟩ := h
  have h0 := rlen_nonneg s.rows (s.cy - 1)
  have h1 := rlen_nonneg s.rows (s.cy + 1)
  have h2 := rlen_nonneg s.rows s.cy
  simp only [editorMoveCursor]
  split_ifs <;> simp_all [WeakValidCursor, nr, rlen] <;> omega

/-- editorMoveCursor never touches the rows. -/
theorem moveCursor_rows (s : EState) (k : Nat) :
    (editorMoveCursor k s).rows = s.rows := by
  simp only [editorMoveCursor]
  split_ifs <;> rfl

/-- editorMoveCursor never touches the dirty flag. -/
theorem moveCursor_dirty (s : EState) (k : Nat) :
    (editorMoveCursor k s).dirty = s.dirty := by
  simp only [editorMoveCursor]
  split_ifs <;> rfl

/-- The weak cursor invariant is preserved by any sequence of moves. -/
theorem weakValid_applyMoves (ms : List Nat) (s : EState) (h : WeakValidCursor s) :
    WeakValidCursor (applyMoves ms s) := by
  induction ms generalizing s with
  | nil => simpa [applyMoves] using h
  | cons k tl ih =>
      simpa [applyMoves, List.foldl_cons] using
        ih (editorMoveCursor k s) (weakValid_moveCursor s k h)

/-- C2 amended: from any valid cursor state, every sequence of moves keeps
    0 ≤ cy ≤ numrows and 0 ≤ cx, and keeps cx ≤ length of row cy whenever
    cy < numrows; a Down move sets cy = min(cy+1, numrows), but it clamps cx
    only when the destination is a real row, so on the virtual row at index
    numrows cx may exceed 0 (the claimed bound via the zero-length virtual
    row does not hold there). -/
theorem c2_moves_weak_invariant (s : EState) (ms : List Nat) (h : ValidCursor s) :
    WeakValidCursor (applyMoves ms s) ∧
    (editorMoveCursor 1066 s).cy = min (s.cy + 1) (nr s.rows) := by
  obtain ⟨ha, hb, hc, hd⟩ := h
  constructor
  · exact weakValid_applyMoves ms s ⟨ha, hb, hc, fun _ => hd⟩
  · simp only [editorMoveCursor]
    split_ifs <;> simp_all [nr, rlen, min_def] <;> omega

/-- C2 witness: the weak invariant after Down, Down, Right, Up from the
    valid one-row state "abc" with cursor (0,3), and the min equation for the
    first Down. -/
theorem c2_moves_witness :
    WeakValidCursor (applyMoves [1066, 1066, 1067, 1065]
      ⟨3, 0, [[97, 98, 99]], false, [], StatusMsg.empty⟩) ∧
    (editorMoveCursor 1066 ⟨3, 0, [[97, 98, 99]], false, [], StatusMsg.empty⟩).cy =
      min ((⟨3, 0, [[97, 98, 99]], false, [], StatusMsg.empty⟩ : EState).cy + 1)
        (nr (⟨3, 0, [[97, 98, 99]], false, [], StatusMsg.empty⟩ : EState).rows) :=
  c2_moves_weak_invariant ⟨3, 0, [[97, 98, 99]], false, [], StatusMsg.empty⟩
    [1066, 1066, 1067, 1065] (by decide)

/-- Reading a row the code just wrote at the same index. -/
theorem rowAt_set_eq (rows : List (List Nat)) (i : Int) (v : List Nat)
    (h0 : 0 ≤ i) (h1 : i.toNat < rows.length) :
    rowAt (rows.set i.toNat v) i = v := by
  simp [rowAt, h0, List.getD_eq_getElem?_getD, List.getElem?_set_self h1]

/-- Reading past the stored rows yields the empty virtual row. -/
theorem rowAt_out (rows : List (List Nat)) (i : Int) (h : rows.length ≤ i.toNat) :
    rowAt rows i = [] := by
  unfold rowAt
  split_ifs with h0
  · simp [List.getD_eq_getElem?_getD, List.getElem?_eq_none h]
  · rfl

/-- Reading the row just appended at the end of the buffer. -/
theorem rowAt_append_length (rows : List (List Nat)) (x : List Nat) :
    rowAt (rows ++ [x]) (rows.length : Int) = x := by
  simp [rowAt, List.getD_eq_getElem?_getD, List.getElem?_concat_length]

/-- Setting row i-1 and erasing row i is exactly the row join: the rows
    before i-1, then the new value, then the rows after i. -/
theorem set_erase_join (rows : List (List Nat)) (i : Nat) (v : List Nat) :
    0 < i → i < rows.length →
    (rows.set (i - 1) v).eraseIdx i = rows.take (i - 1) ++ v :: rows.drop (i + 1) := by
  induction rows generalizing i with
  | nil => intro _ h2; simp at h2
  | cons a t ih =>
    intro h1 h2
    match i, h1 with
    | 1, _ =>
      match t, h2 with
      | b :: t', _ => simp [List.set, List.eraseIdx]
    | (j + 2), _ =>
      have hrec := ih (j + 1) (by omega) (by simp at h2; omega)
      simp only [List.set, List.eraseIdx, Nat.add_sub_cancel] at hrec ⊢
      simp [hrec]

/-- C4: with the cursor at column 0 of a real row cy > 0, editorDelChar
    concatenates row cy onto row cy-1, removes row cy (numrows drops by
    one), sets dirty, and leaves the cursor at (cy-1, old length of row
    cy-1). -/
theorem c4_delete_joins_rows (s : EState)
    (h1 : 0 < s.cy) (h2 : s.cy < nr s.rows) (h3 : s.cx = 0) :
    (editorDelChar s).rows =
      s.rows.take (s.cy.toNat - 1) ++
        (rowAt s.rows (s.cy - 1) ++ rowAt s.rows s.cy) :: s.rows.drop (s.cy.toNat + 1) ∧
    (editorDelChar s).cy = s.cy - 1 ∧
    (editorDelChar s).cx = rlen s.rows (s.cy - 1) ∧
    nr (editorDelChar s).rows = nr s.rows - 1 ∧
    (editorDelChar s).dirty = true := by
  have hne : ¬ (s.cy = nr s.rows) := by omega
  have hand : ¬ (s.cx = 0 ∧ s.cy = 0) := by omega
  have hcx : ¬ (0 < s.cx) := by omega
  have hiN : s.cy.toNat < s.rows.length := by simp only [nr] at h2; omega
  have hi0 : 0 < s.cy.toNat := by omega
  simp only [editorDelChar, if_neg hne, if_neg hand, if_neg hcx]
  refine ⟨?_, by trivial, by trivial, ?_, by trivial⟩
  · exact set_erase_join s.rows s.cy.toNat _ hi0 hiN
  · simp only [nr, List.length_eraseIdx, List.length_set, hiN, if_pos]
    simp only [nr] at h2 ⊢
    omega

/-- C4 witness: rows "foo", "bar" with the cursor at (1,0); Backspace joins
    them into the single row "foobar" with the cursor at (0,3). -/
theorem c4_delete_joins_witness :
    (editorDelChar ⟨0, 1, [[102, 111, 111], [98, 97, 114]], false, [], StatusMsg.empty⟩).rows =
      [[102, 111, 111, 98, 97, 114]] ∧
    (editorDelChar ⟨0, 1, [[102, 111, 111], [98, 97, 114]], false, [], StatusMsg.empty⟩).cy = 0 ∧
    (editorDelChar ⟨0, 1, [[102, 111, 111], [98, 97, 114]], false, [], StatusMsg.empty⟩).cx = 3 ∧
    nr (editorDelChar ⟨0, 1, [[102, 111, 111], [98, 97, 114]], false, [], StatusMsg.empty⟩).rows = 1 ∧
    (editorDelChar ⟨0, 1, [[102, 111, 111], [98, 97, 114]], false, [], StatusMsg.empty⟩).dirty = true := by
  have h := c4_delete_joins_rows ⟨0, 1, [[102, 111, 111], [98, 97, 114]], false, [], StatusMsg.empty⟩
    (by decide) (by decide) (by decide)
  revert h
  decide

/-- C5: inserting a byte at any valid cursor position and then deleting at
    the resulting cursor position restores the row content at cy and the
    cursor coordinates: editorInsertChar and editorDelChar are inverses at
    the point of insertion (when the insertion happened on the virtual row,
    the row that remains is the same empty content the virtual row had). -/
theorem c5_insert_delete_inverse (s : EState) (c : Nat)
    (h1 : 0 ≤ s.cy) (h2 : s.cy ≤ nr s.rows) (h3 : 0 ≤ s.cx) (h4 : s.cx ≤ rlen s.rows s.cy) :
    (editorDelChar (editorInsertChar s c)).cx = s.cx ∧
    (editorDelChar (editorInsertChar s c)).cy = s.cy ∧
    rowAt (editorDelChar (editorInsertChar s c)).rows s.cy = rowAt s.rows s.cy := by
  rcases lt_or_eq_of_le h2 with hlt | heq
  · -- the cursor is on a stored row: no row is appended
    have hne : ¬ (s.cy = nr s.rows) := by omega
    have hiN : s.cy.toNat < s.rows.length := by simp only [nr] at hlt; omega
    have hcxN : s.cx.toNat ≤ (rowAt s.rows s.cy).length := by
      simp only [rlen] at h4; omega
    set A := (rowAt s.rows s.cy).take s.cx.toNat with hA
    set B := (rowAt s.rows s.cy).drop s.cx.toNat with hB
    set R1 := s.rows.set s.cy.toNat (A ++ c :: B) with hR1
    have hIns : editorInsertChar s c =
        { s with rows := R1, cx := s.cx + 1, dirty := true } := by
      rw [hR1, hA, hB]
      simp only [editorInsertChar, if_neg hne]
    rw [hIns]
    have hlen1 : R1.length = s.rows.length := by rw [hR1]; simp
    have hiN1 : s.cy.toNat < R1.length := by rw [hlen1]; exact hiN
    have hrow1 : rowAt R1 s.cy = A ++ c :: B := by
      rw [hR1]; exact rowAt_set_eq _ _ _ h1 hiN
    have hg1 : ¬ ((s.cy : Int) = nr R1) := by
      simp only [nr, hlen1]
      simp only [nr] at hlt
      omega
    have hg2 : ¬ (s.cx + 1 = 0 ∧ (s.cy : Int) = 0) := by omega
    have hg3 : (0 : Int) < s.cx + 1 := by omega
    simp only [editorDelChar, if_neg hg1, if_neg hg2, if_pos hg3]
    refine ⟨by omega, by trivial, ?_⟩
    rw [rowAt_set_eq _ _ _ h1 hiN1, hrow1]
    have ht : (s.cx + 1).toNat = s.cx.toNat + 1 := by omega
    rw [ht]
    simp only [Nat.add_sub_cancel]
    have hAlen : A.length = s.cx.toNat := by
      rw [hA]; simp [List.length_take]; omega
    rw [List.take_left' hAlen]
    rw [show A ++ c :: B = (A ++ [c]) ++ B from by simp]
    rw [List.drop_left' (by simp [hAlen])]
    rw [hA, hB]
    exact List.take_append_drop _ _
  · -- the cursor is on the virtual row: an empty row is appended first
    have hcy : s.cy.toNat = s.rows.length := by simp only [nr] at heq; omega
    have hrlen0 : rlen s.rows s.cy = 0 := by
      simp [rlen, rowAt_out s.rows s.cy (by omega)]
    rw [hrlen0] at h4
    have hcx0 : s.cx = 0 := by omega
    have hrowV : rowAt (s.rows ++ [[]]) s.cy = [] := by
      have hc : s.cy = ((s.rows.length : Nat) : Int) := by simp only [nr] at heq; omega
      rw [hc]
      exact rowAt_append_length s.rows []
    have hIns : editorInsertChar s c =
        { s with
            rows := (s.rows ++ [[]]).set s.cy.toNat ([c]),
            cx := s.cx + 1,
            dirty := true } := by
      simp only [editorInsertChar, editorAppendRow, if_pos heq]
      rw [hrowV, hcx0]
      simp
    rw [hIns]
    set R1 := (s.rows ++ [[]]).set s.cy.toNat [c] with hR1
    have hlenR : R1.length = s.rows.length + 1 := by rw [hR1]; simp
    have hiN1 : s.cy.toNat < R1.length := by rw [hlenR]; omega
    have hrow1 : rowAt R1 s.cy = [c] := by
      rw [hR1]; exact rowAt_set_eq _ _ _ h1 (by simp; omega)
    have hg1 : ¬ ((s.cy : Int) = nr R1) := by
      simp only [nr, hlenR]
      omega
    have hg2 : ¬ (s.cx + 1 = 0 ∧ (s.cy : Int) = 0) := by omega
    have hg3 : (0 : Int) < s.cx + 1 := by omega
    simp only [editorDelChar, if_neg hg1, if_neg hg2, if_pos hg3]
    refine ⟨by omega, by trivial, ?_⟩
    rw [rowAt_set_eq _ _ _ h1 hiN1, hrow1, hcx0]
    simp
    rw [rowAt_out s.rows s.cy (by omega)]

/-- C5 witness: in the one-row buffer "ab" with the cursor at (0,1),
    inserting 'x' and deleting restores row "ab" and cursor (0,1). -/
theorem c5_insert_delete_witness :
    (editorDelChar (editorInsertChar ⟨1, 0, [[97, 98]], false, [], StatusMsg.empty⟩ 120)).cx = 1 ∧
    (editorDelChar (editorInsertChar ⟨1, 0, [[97, 98]], false, [], StatusMsg.empty⟩ 120)).cy = 0 ∧
    rowAt (editorDelChar (editorInsertChar ⟨1, 0, [[97, 98]], false, [], StatusMsg.empty⟩ 120)).rows 0
      = [97, 98] := by
  have h := c5_insert_delete_inverse ⟨1, 0, [[97, 98]], false, [], StatusMsg.empty⟩ 120
    (by decide) (by decide) (by decide) (by decide)
  revert h
  decide

/-- Shifting a freshly extended buffer down from slot k duplicates the entry
    at k: everything up to k stays, the old tail moves down one slot. -/
theorem shiftDown_append (l : List (List Nat)) (x : List Nat) (k : Nat) (h : k < l.length) :
    shiftDown (l ++ [x]) k = l.take (k + 1) ++ l.drop k := by
  unfold shiftDown
  rw [List.take_append_of_le_length (by omega), List.drop_append_of_le_length (by omega),
      List.dropLast_concat]

/-- shiftDown from slot k of a buffer extended with x, then overwriting slot
    k with x, is exactly the insertion of x at position k. -/
theorem shiftDown_set (l : List (List Nat)) (k : Nat) (x : List Nat) (h : k ≤ l.length) :
    (shiftDown (l ++ [x]) k).set k x = l.take k ++ x :: l.drop k := by
  rcases lt_or_eq_of_le h with hlt | heq
  · rw [shiftDown_append l x k hlt]
    rw [List.set_eq_take_cons_drop x (by simp [List.length_take, List.length_drop]; omega)]
    have ht : (l.take (k + 1) ++ l.drop k).take k = l.take k := by
      rw [List.take_append_of_le_length (by simp [List.length_take]; omega), List.take_take,
          Nat.min_eq_left (by omega)]
    have hd : (l.take (k + 1) ++ l.drop k).drop (k + 1) = l.drop k :=
      List.drop_left' (by simp [List.length_take]; omega)
    rw [ht, hd]
  · subst heq
    have h0 : shiftDown (l ++ [x]) l.length = l ++ [x] := by
      unfold shiftDown
      rw [List.take_of_length_le (by simp), List.drop_left' rfl]
      simp
    rw [h0, List.set_eq_take_cons_drop x (by simp), List.take_left' rfl,
        List.drop_eq_nil_of_le (by simp), List.take_length, List.drop_length]

/-- C6: with the cursor on a real row, editorInsertNewline truncates row cy
    to its first cx bytes, inserts a new row right after it holding the
    remaining bytes, moves the cursor to (cy+1, 0) and sets dirty; for
    cx = 0 the truncated prefix is the empty row, i.e. an empty row appears
    at cy and the original content moves down one line. -/
theorem c6_newline_splits_row (s : EState)
    (h1 : 0 ≤ s.cy) (h2 : s.cy < nr s.rows) (h3 : 0 ≤ s.cx) (h4 : s.cx ≤ rlen s.rows s.cy) :
    (editorInsertNewline s).rows =
      s.rows.take s.cy.toNat ++
        (rowAt s.rows s.cy).take s.cx.toNat ::
          (rowAt s.rows s.cy).drop s.cx.toNat :: s.rows.drop (s.cy.toNat + 1) ∧
    (editorInsertNewline s).cy = s.cy + 1 ∧
    (editorInsertNewline s).cx = 0 ∧
    (editorInsertNewline s).dirty = true := by
  have hiN : s.cy.toNat < s.rows.length := by simp only [nr] at h2; omega
  have hsome : s.rows[s.cy.toNat]? = some (rowAt s.rows s.cy) := by
    simp [rowAt, h1, List.getD_eq_getElem?_getD, List.getElem?_eq_getElem hiN]
  by_cases hcx : s.cx = 0
  · -- Enter at column 0
    have hcxN : s.cx.toNat = 0 := by omega
    simp only [editorInsertNewline, if_pos hcx, hcxN, List.take_zero, List.drop_zero]
    refine ⟨?_, by trivial, by trivial, by trivial⟩
    rw [shiftDown_append s.rows [] s.cy.toNat hiN]
    set i := s.cy.toNat with hi
    set X := s.rows.take (i + 1) ++ s.rows.drop i with hX
    have hXlen : X.length = s.rows.length + 1 := by
      rw [hX]; simp [List.length_take, List.length_drop]; omega
    have hget : X.getD i [] = rowAt s.rows s.cy := by
      rw [hX, List.getD_eq_getElem?_getD, List.getElem?_append]
      rw [if_pos (by simp [List.length_take] <;> omega)]
      rw [List.getElem?_take, if_pos (by omega), hsome]
      rfl
    rw [hget]
    have hr3 : X.set (i + 1) (rowAt s.rows s.cy) =
        s.rows.take (i + 1) ++ rowAt s.rows s.cy :: s.rows.drop (i + 1) := by
      rw [List.set_eq_take_cons_drop _ (by omega)]
      have ht : X.take (i + 1) = s.rows.take (i + 1) := by
        rw [hX, List.take_append_of_le_length (by simp [List.length_take] <;> omega),
            List.take_of_length_le (by simp [List.length_take])]
      have hd : X.drop (i + 2) = s.rows.drop (i + 1) := by
        rw [hX, List.drop_append_eq_append_drop,
            List.drop_eq_nil_of_le (by simp [List.length_take] <;> omega)]
        have h12 : i + 2 - (s.rows.take (i + 1)).length = 1 := by
          simp [List.length_take]; omega
        rw [h12, List.nil_append]
        simp [List.drop_drop, Nat.add_comm]
      rw [ht, hd]
    rw [hr3]
    rw [List.set_eq_take_cons_drop _ (by simp [List.length_take, List.length_drop] <;> omega)]
    have ht2 : (s.rows.take (i + 1) ++ rowAt s.rows s.cy :: s.rows.drop (i + 1)).take i
        = s.rows.take i := by
      rw [List.take_append_of_le_length (by simp [List.length_take] <;> omega),
          List.take_take, Nat.min_eq_left (by omega)]
    have hd2 : (s.rows.take (i + 1) ++ rowAt s.rows s.cy :: s.rows.drop (i + 1)).drop (i + 1)
        = rowAt s.rows s.cy :: s.rows.drop (i + 1) :=
      List.drop_left' (by simp [List.length_take] <;> omega)
    rw [ht2, hd2]
  · -- Enter inside or at the end of the row
    simp only [editorInsertNewline, if_neg hcx]
    refine ⟨?_, by trivial, by trivial, by trivial⟩
    set i := s.cy.toNat with hi
    set A := (rowAt s.rows s.cy).take s.cx.toNat with hA
    set rem := (rowAt s.rows s.cy).drop s.cx.toNat with hrem
    rw [shiftDown_set (s.rows.set i A) (i + 1) rem (by simp [List.length_set]; omega)]
    have hta : (s.rows.set i A).take (i + 1) = s.rows.take i ++ [A] := by
      rw [List.set_eq_take_cons_drop A hiN, List.take_append_eq_append_take,
          List.take_of_length_le (by simp [List.length_take] <;> omega)]
      have h1a : i + 1 - (s.rows.take i).length = 1 := by simp [List.length_take]; omega
      rw [h1a]
      simp
    have hda : (s.rows.set i A).drop (i + 1) = s.rows.drop (i + 1) := by
      simp [List.drop_set]
    rw [hta, hda]
    simp

/-- C6 witness: from the empty buffer, typing "hi" gives the one-row buffer
    "hi" with cursor (0,2); Enter (via the theorem) yields rows "hi" and ""
    with cursor (1,0); typing "x" then yields rows "hi" and "x" with cursor
    (1,1). -/
theorem c6_newline_witness :
    editorInsertChar (editorInsertChar ⟨0, 0, [], false, [], StatusMsg.empty⟩ 104) 105
      = ⟨2, 0, [[104, 105]], true, [], StatusMsg.empty⟩ ∧
    (editorInsertNewline ⟨2, 0, [[104, 105]], true, [], StatusMsg.empty⟩).rows = [[104, 105], []] ∧
    (editorInsertNewline ⟨2, 0, [[104, 105]], true, [], StatusMsg.empty⟩).cy = 1 ∧
    (editorInsertNewline ⟨2, 0, [[104, 105]], true, [], StatusMsg.empty⟩).cx = 0 ∧
    (editorInsertChar (editorInsertNewline ⟨2, 0, [[104, 105]], true, [], StatusMsg.empty⟩) 120).rows
      = [[104, 105], [120]] ∧
    (editorInsertChar (editorInsertNewline ⟨2, 0, [[104, 105]], true, [], StatusMsg.empty⟩) 120).cy
      = 1 ∧
    (editorInsertChar (editorInsertNewline ⟨2, 0, [[104, 105]], true, [], StatusMsg.empty⟩) 120).cx
      = 1 := by
  have h := c6_newline_splits_row ⟨2, 0, [[104, 105]], true, [], StatusMsg.empty⟩
    (by decide) (by decide) (by decide) (by decide)
  revert h
  decide

/-- The getline loop of editorOpen appends the stripped lines in order. -/
theorem foldl_appendRow_rows (lines : List (List Nat)) (t : EState) :
    (lines.foldl (fun u line => editorAppendRow u (stripTrail line)) t).rows
      = t.rows ++ lines.map stripTrail := by
  induction lines generalizing t with
  | nil => simp
  | cons l tl ih =>
      rw [List.foldl_cons, ih]
      simp [editorAppendRow]

/-- A successful editorOpen stores exactly the getline lines of the content,
    each stripped of its trailing CR/LF run. -/
theorem editorOpen_ok_rows (s : EState) (fn : List Nat) (content : List Nat) :
    (editorOpen s fn (Except.ok content)).rows = (splitAfterLF content).map stripTrail := by
  simp [editorOpen, foldl_appendRow_rows]

/-- Splitting after LF peels off the first LF-terminated line. -/
theorem splitAfterLF_append (b rest : List Nat) (h : 10 ∉ b) :
    splitAfterLF (b ++ 10 :: rest) = (b ++ [10]) :: splitAfterLF rest := by
  induction b with
  | nil => simp [splitAfterLF]
  | cons c b' ih =>
    have hc : c ≠ 10 := fun hc => h (hc ▸ List.mem_cons_self c b')
    have hb' : (10 : Nat) ∉ b' := fun hm => h (List.mem_cons_of_mem c hm)
    simp only [List.cons_append, splitAfterLF, if_neg hc, List.append_eq, ih hb']

/-- Stripping the trailing CR/LF run off an LF- or CRLF-terminated line whose
    body has no LF and does not end in CR recovers exactly the body. -/
theorem stripTrail_body (b : List Nat) (h10 : (10 : Nat) ∉ b) (h13 : b.getLast? ≠ some 13) :
    stripTrail (b ++ [10]) = b ∧ stripTrail (b ++ [13, 10]) = b := by
  have hdw : b.reverse.dropWhile (fun c => c == 10 || c == 13) = b.reverse := by
    cases hb : b.reverse with
    | nil => simp
    | cons x t =>
      have hx : b.getLast? = some x := by
        rw [← List.head?_reverse, hb]
        rfl
      have hx13 : x ≠ 13 := fun he => h13 (he ▸ hx)
      have hxb : x ∈ b := by
        have : x ∈ b.reverse := hb ▸ List.mem_cons_self x t
        simpa using this
      have hx10 : x ≠ 10 := fun he => h10 (he ▸ hxb)
      rw [List.dropWhile_cons]
      simp [hx10, hx13]
  constructor
  · simp [stripTrail, hdw]
  · simp [stripTrail, hdw]

/-- Loading a file made of LF/CRLF-terminated lines whose bodies avoid LF and
    do not end in CR stores exactly the bodies. -/
theorem load_mkContent (ls : List (List Nat × Bool))
    (h : ∀ p ∈ ls, (10 : Nat) ∉ p.1 ∧ p.1.getLast? ≠ some 13) :
    (splitAfterLF (mkContent ls)).map stripTrail = ls.map (fun p => p.1) := by
  induction ls with
  | nil => simp [mkContent, splitAfterLF]
  | cons p tl ih =>
    obtain ⟨hp10, hp13⟩ := h p (List.mem_cons_self p tl)
    have htl := ih (fun q hq => h q (List.mem_cons_of_mem p hq))
    obtain ⟨b, crlf⟩ := p
    cases crlf with
    | false =>
        have hm : mkContent ((b, false) :: tl) = b ++ 10 :: mkContent tl := by
          simp [mkContent]
        rw [hm, splitAfterLF_append b _ hp10]
        simp only [List.map_cons]
        rw [(stripTrail_body b hp10 hp13).1, htl]
    | true =>
        have hm : mkContent ((b, true) :: tl) = (b ++ [13]) ++ 10 :: mkContent tl := by
          simp [mkContent]
        rw [hm, splitAfterLF_append (b ++ [13]) _ (by simp [hp10])]
        simp only [List.map_cons]
        rw [show (b ++ [13]) ++ [10] = b ++ [13, 10] from by simp]
        rw [(stripTrail_body b hp10 hp13).2, htl]

/-- C3 amended: for content whose lines are each terminated by LF or CRLF and
    whose bodies contain no LF and do not end in CR, loading via editorOpen
    and serializing reproduces the content with each line's terminator
    collapsed to a single LF; in general the loader strips the whole maximal
    trailing CR/LF run of every line, so a body's own trailing CR bytes are
    also collapsed (the counterexample above). -/
theorem c3_roundtrip_normalizes (s : EState) (fn : List Nat) (ls : List (List Nat × Bool))
    (h : ∀ p ∈ ls, (10 : Nat) ∉ p.1 ∧ p.1.getLast? ≠ some 13) :
    serialize ((editorOpen s fn (Except.ok (mkContent ls))).rows)
      = serialize (ls.map (fun p => p.1)) := by
  rw [editorOpen_ok_rows, load_mkContent ls h]

/-- C3 witness: the file "ab\r\n" + "\n" + "c\n" loads and serializes back to
    "ab\n" + "\n" + "c\n". -/
theorem c3_roundtrip_witness :
    serialize ((editorOpen ⟨0, 0, [], false, [], StatusMsg.empty⟩ [102]
        (Except.ok (mkContent [([97, 98], true), ([], false), ([99], false)]))).rows)
      = [97, 98, 10, 10, 99, 10] := by
  have h := c3_roundtrip_normalizes ⟨0, 0, [], false, [], StatusMsg.empty⟩ [102]
    [([97, 98], true), ([], false), ([99], false)] (by decide)
  revert h
  decide

/-- C7 amended: every buffer mutation sets the dirty flag (editorDelChar
    either leaves the whole state untouched in its no-op cases or sets it),
    a failed editorSave leaves the flag exactly as it was, only a fully
    successful editorSave or a successful editorOpen clear it, and along any
    instrumented trace the flag can only become false through a save or open
    operation - but, per the counterexample above, the flag being set does
    not imply the content differs from the last successful save. -/
theorem c7_dirty_discipline :
    (∀ (s : EState) (c : Nat), (editorInsertChar s c).dirty = true) ∧
    (∀ s : EState, editorDelChar s = s ∨ (editorDelChar s).dirty = true) ∧
    (∀ s : EState, (editorInsertNewline s).dirty = true) ∧
    (∀ (s : EState) (b : List Nat), (editorAppendRow s b).dirty = true) ∧
    (∀ (s : EState) (out : SaveOutcome),
        (editorSave out s).2 = false → ((editorSave out s).1).dirty = s.dirty) ∧
    (∀ (s : EState) (out : SaveOutcome),
        (editorSave out s).2 = true → ((editorSave out s).1).dirty = false) ∧
    (∀ (s : EState) (fn content : List Nat),
        (editorOpen s fn (Except.ok content)).dirty = false) ∧
    (∀ (op : EditOp) (g : EState × List Nat),
        (gstep op g).1.dirty = false → g.1.dirty = false ∨ isSyncOp op = true) := by
  have hins : ∀ (s : EState) (c : Nat), (editorInsertChar s c).dirty = true := by
    intro s c
    simp only [editorInsertChar]
  have hdel : ∀ s : EState, editorDelChar s = s ∨ (editorDelChar s).dirty = true := by
    intro s
    simp only [editorDelChar]
    split_ifs <;> simp
  have hnl : ∀ s : EState, (editorInsertNewline s).dirty = true := by
    intro s
    simp only [editorInsertNewline]
    split_ifs <;> simp
  have happ : ∀ (s : EState) (b : List Nat), (editorAppendRow s b).dirty = true := by
    intro s b
    simp [editorAppendRow]
  have hsavef : ∀ (s : EState) (out : SaveOutcome),
      (editorSave out s).2 = false → ((editorSave out s).1).dirty = s.dirty := by
    intro s out
    cases out <;> simp only [editorSave] <;> split_ifs <;> simp
  have hsavet : ∀ (s : EState) (out : SaveOutcome),
      (editorSave out s).2 = true → ((editorSave out s).1).dirty = false := by
    intro s out
    cases out <;> simp only [editorSave] <;> split_ifs <;> simp
  have hopen : ∀ (s : EState) (fn content : List Nat),
      (editorOpen s fn (Except.ok content)).dirty = false := by
    intro s fn content
    simp [editorOpen]
  refine ⟨hins, hdel, hnl, happ, hsavef, hsavet, hopen, ?_⟩
  intro op g hfd
  cases op with
  | insertChar c => exact absurd hfd (by simp [gstep, applyOp, hins])
  | delChar =>
      rcases hdel g.1 with heq | hset
      · left
        simpa [gstep, applyOp, heq] using hfd
      · exact absurd hfd (by simp [gstep, applyOp, hset])
  | insertNewline => exact absurd hfd (by simp [gstep, applyOp, hnl])
  | appendRow b => exact absurd hfd (by simp [gstep, applyOp, happ])
  | moveCursor k =>
      left
      simpa [gstep, applyOp, moveCursor_dirty] using hfd
  | saveFile out => right; rfl
  | openFile fn res => right; rfl

/-- C7 witness: the dirty-discipline properties applied at concrete inputs:
    an ftruncate-failed save on a dirty named buffer leaves dirty set, and a
    delete at the buffer origin is a no-op. -/
theorem c7_dirty_witness :
    ((editorSave SaveOutcome.truncFail ⟨0, 0, [[97]], true, [102], StatusMsg.empty⟩).1).dirty
      = (⟨0, 0, [[97]], true, [102], StatusMsg.empty⟩ : EState).dirty ∧
    ((⟨0, 0, [[97]], true, [102], StatusMsg.empty⟩ : EState).dirty = false ∨
      isSyncOp (EditOp.saveFile SaveOutcome.ok) = true) := by
  obtain ⟨-, -, -, -, h5, -, -, h8⟩ := c7_dirty_discipline
  constructor
  · exact h5 ⟨0, 0, [[97]], true, [102], StatusMsg.empty⟩ SaveOutcome.truncFail (by decide)
  · exact h8 (EditOp.saveFile SaveOutcome.ok)
      (⟨0, 0, [[97]], true, [102], StatusMsg.empty⟩, []) (by decide)

/-- C9: a Save keypress with no filename bound whose Save-as prompt the user
    cancels leaves the filename unbound, the dirty flag, rows and cursor
    unchanged, invokes no save and does not exit; and in any prompt, Escape
    cancels discarding the partial input, Enter accepts exactly the
    non-empty captures and cancels an empty one. -/
theorem c9_prompt_cancel :
    (∀ (s : EState) (inp : KInput), inp.key = 19 → s.filename = [] →
      (editorPrompt PromptLabel.saveAs [] inp.promptKeys).2 = some none →
      (editorProcessKeypress inp s).st.filename = [] ∧
      (editorProcessKeypress inp s).st.dirty = s.dirty ∧
      (editorProcessKeypress inp s).st.rows = s.rows ∧
      (editorProcessKeypress inp s).st.cx = s.cx ∧
      (editorProcessKeypress inp s).st.cy = s.cy ∧
      (editorProcessKeypress inp s).saveInvoked = false ∧
      (editorProcessKeypress inp s).exited = false) ∧
    (∀ (label : PromptLabel) (buf rest : List Nat),
      (editorPrompt label buf (27 :: rest)).2 = some none) ∧
    (∀ (label : PromptLabel) (buf rest : List Nat), buf ≠ [] →
      (editorPrompt label buf (13 :: rest)).2 = some (some buf)) ∧
    (∀ (label : PromptLabel) (rest : List Nat),
      (editorPrompt label [] (13 :: rest)).2 = some none) := by
  refine ⟨?_, fun label buf rest => rfl, ?_, fun label rest => rfl⟩
  · intro s inp h19 hfn hcancel
    have hres : editorProcessKeypress inp s =
        ⟨{ s with statusmsg := (editorPrompt PromptLabel.saveAs [] inp.promptKeys).1 },
          false, false⟩ := by
      simp [editorProcessKeypress, h19, hfn, hcancel]
    rw [hres]
    simp [hfn]
  · intro label buf rest h
    simp [editorPrompt, h]

/-- C9 witness: from a dirty unnamed one-row buffer, Ctrl-S opens the Save-as
    prompt, the user types "out.txt" and presses Escape; the filename stays
    unbound, dirty and buffer unchanged, no save is invoked. -/
theorem c9_prompt_cancel_witness :
    (editorProcessKeypress ⟨19, [111, 117, 116, 46, 116, 120, 116, 27], [], SaveOutcome.ok,
        Except.error "e"⟩ ⟨1, 0, [[104]], true, [], StatusMsg.empty⟩).st.filename = [] ∧
    (editorProcessKeypress ⟨19, [111, 117, 116, 46, 116, 120, 116, 27], [], SaveOutcome.ok,
        Except.error "e"⟩ ⟨1, 0, [[104]], true, [], StatusMsg.empty⟩).st.dirty = true ∧
    (editorProcessKeypress ⟨19, [111, 117, 116, 46, 116, 120, 116, 27], [], SaveOutcome.ok,
        Except.error "e"⟩ ⟨1, 0, [[104]], true, [], StatusMsg.empty⟩).st.rows = [[104]] ∧
    (editorProcessKeypress ⟨19, [111, 117, 116, 46, 116, 120, 116, 27], [], SaveOutcome.ok,
        Except.error "e"⟩ ⟨1, 0, [[104]], true, [], StatusMsg.empty⟩).saveInvoked = false := by
  have h := c9_prompt_cancel.1 ⟨1, 0, [[104]], true, [], StatusMsg.empty⟩
    ⟨19, [111, 117, 116, 46, 116, 120, 116, 27], [], SaveOutcome.ok, Except.error "e"⟩
    rfl rfl (by decide)
  revert h
  decide

/-- C10: for any byte-valued key (≤ 255), the keys bound to actions are
    exactly Enter (13), Backspace/DEL (8, 127) and the Save/Open/Exit
    control codes (19, 15, 24); any other control byte, and any byte 128 or
    above, leaves the whole editor state unchanged (no exit, no save), and
    the non-control bytes below 128 are exactly the ones inserted into the
    buffer at the cursor. -/
theorem c10_unbound_keys (s : EState) (inp : KInput) (h255 : inp.key ≤ 255) :
    (((iscntrl inp.key = true ∧ inp.key ∉ ([13, 8, 127, 19, 15, 24] : List Nat)) ∨
        128 ≤ inp.key) →
      editorProcessKeypress inp s = ⟨s, false, false⟩) ∧
    ((iscntrl inp.key = false ∧ inp.key < 128) →
      editorProcessKeypress inp s = ⟨editorInsertChar s inp.key, false, false⟩) := by
  obtain ⟨c, pk, pk2, so, orr⟩ := inp
  simp only at h255 ⊢
  interval_cases c <;> refine ⟨fun h => ?_, fun hb => ?_⟩ <;>
    first
      | rfl
      | simp_all [iscntrl]

/-- C10 witness: the control byte 1 (Ctrl-A, unbound) leaves the state
    untouched, and the printable byte 120 ('x') is inserted. -/
theorem c10_unbound_keys_witness :
    editorProcessKeypress ⟨1, [], [], SaveOutcome.ok, Except.error "e"⟩
        ⟨0, 0, [[97]], false, [], StatusMsg.empty⟩
      = ⟨⟨0, 0, [[97]], false, [], StatusMsg.empty⟩, false, false⟩ ∧
    editorProcessKeypress ⟨120, [], [], SaveOutcome.ok, Except.error "e"⟩
        ⟨0, 0, [[97]], false, [], StatusMsg.empty⟩
      = ⟨editorInsertChar ⟨0, 0, [[97]], false, [], StatusMsg.empty⟩ 120, false, false⟩ := by
  constructor
  · exact (c10_unbound_keys ⟨0, 0, [[97]], false, [], StatusMsg.empty⟩
      ⟨1, [], [], SaveOutcome.ok, Except.error "e"⟩ (by decide)).1 (Or.inl (by decide))
  · exact (c10_unbound_keys ⟨0, 0, [[97]], false, [], StatusMsg.empty⟩
      ⟨120, [], [], SaveOutcome.ok, Except.error "e"⟩ (by decide)).2 (by decide)
